import Mathlib

/-!
Verification of the Active Domain Randomization (ADR) core of SimuRLacra,
`Pyrado/pyrado/algorithms/meta/adr.py`: a shallow embedding of `SVPGAdapter`
(`step`, `reset`, the nominal-parameter helpers and the constructor),
`RewardGenerator.train` and `preprocess_rollout`, together with theorems
settling the behavioural claims about them.

Numeric values are modelled as rationals; the numpy draws
(`np.random.random_sample`) are passed in explicitly as `fresh` arguments,
every component of such a draw lying in `[0, 1)`.
-/

/-- Python-level exceptions raised on the modelled code paths. -/
inductive PyErr
  | notImplementedError
  | attributeError
  | indexError
  | typeErr
  | assertionError
  | runtimeError
  deriving DecidableEq, Repr

/-- `np.clip(x, lo, hi)` on a scalar (numpy applies the lower bound first). -/
def clip (x lo hi : ℚ) : ℚ := min hi (max lo x)

/-- `np.clip(v, lo, hi)` applied componentwise to a vector. -/
def clipVec (v : List ℚ) (lo hi : ℚ) : List ℚ := v.map (fun x => clip x lo hi)

/-- `DomainParam(name, weighting)` from `pyrado.domain_randomization.domain_parameter`,
as constructed by `ADR.__init__` (`DomainParam(param, 1)`): only the name is read here. -/
structure DomainParam where
  name : String
  weighting : ℚ
  deriving DecidableEq, Repr

/-- The mutable state of an `SVPGAdapter`: the per-particle normalized-parameter matrix
`inner_parameter_state` (one row per particle), the per-particle step counters `count`,
the shared `horizon_count`, and the configuration fields read by `step`/`reset`.
`pool_assigned` records whether `SamplerPool(num_workers)` construction succeeded in the
constructor, i.e. whether the attribute `self.pool` is bound. -/
structure SVPGAdapterState where
  inner_parameter_state : List (List ℚ)
  count : List ℕ
  horizon_count : ℕ
  max_steps : ℕ
  horizon : ℕ
  svpg_max_step_length : ℚ
  pool_assigned : Bool
  num_particles : ℕ
  deriving DecidableEq, Repr

/-- `SVPGAdapter.step(act, i)`.  With `i = None` the method raises
`NotImplementedError` before touching any state.  With a particle index it clips the
action to `[-1, 1]`, scales it by `svpg_max_step_length`, moves row `i` of
`inner_parameter_state` by the result and clips into `[0, 1]`; it then dispatches the
rollouts (which needs the `self.pool` attribute — an `AttributeError` if the sampler
pool was never assigned), computes `done` from the pre-increment counter, increments
`count[i]` and `horizon_count`, and re-draws row `i` to `fresh` (the
`np.random.random_sample` result) whenever the incremented counter is divisible by
`horizon`.  The reward and the `info` dict come from external rollout evaluation and
the discriminator, which do not read or write the adapter state, so the modelled
result carries the returned observation and `done` flag. -/
def SVPGAdapter.step (s : SVPGAdapterState) (act : List ℚ) (i : Option ℕ)
    (fresh : List ℚ) : Except PyErr (List ℚ × Bool) × SVPGAdapterState :=
  match i with
  | none => (Except.error PyErr.notImplementedError, s)
  | some i =>
    if i < s.inner_parameter_state.length then
      let action := (clipVec act (-1) 1).map (fun x => x * s.svpg_max_step_length)
      let updated :=
        clipVec (List.zipWith (fun x y => x + y) (s.inner_parameter_state.getD i []) action) 0 1
      let s1 : SVPGAdapterState :=
        { s with inner_parameter_state := s.inner_parameter_state.set i updated }
      if s.pool_assigned then
        if i < s1.count.length then
          let c := s1.count.getD i 0
          let dflag : Bool := decide ((c : ℤ) ≥ (s.max_steps : ℤ) - 1)
          let s2 : SVPGAdapterState :=
            { s1 with count := s1.count.set i (c + 1), horizon_count := s1.horizon_count + 1 }
          if (c + 1) % s.horizon == 0 then
            (Except.ok (fresh, dflag),
              { s2 with inner_parameter_state := s2.inner_parameter_state.set i fresh })
          else
            (Except.ok (updated, dflag), s2)
        else (Except.error PyErr.indexError, s1)
      else (Except.error PyErr.attributeError, s1)
    else (Except.error PyErr.indexError, s)

/-- The value returned by `SVPGAdapter.reset`: a single particle's row when an index
was given, the whole matrix otherwise. -/
inductive ResetResult
  | row (r : List ℚ)
  | mat (m : List (List ℚ))
  deriving DecidableEq, Repr

/-- `SVPGAdapter.reset(i, init_state, domain_param)`.  Python's `init_state` argument
is a row vector when an index is given and a matrix otherwise; the two shapes are the
separate arguments `init_state` and `init_state_mat` here.  `freshRow`/`freshMat`
stand for the `np.random.random_sample` draws used when no `init_state` is supplied.
Both branches `assert domain_param is None`. -/
def SVPGAdapter.reset (s : SVPGAdapterState) (i : Option ℕ)
    (init_state : Option (List ℚ)) (init_state_mat : Option (List (List ℚ)))
    (domain_param : Option (List (String × ℚ)))
    (freshRow : List ℚ) (freshMat : List (List ℚ)) :
    Except PyErr ResetResult × SVPGAdapterState :=
  match i with
  | some i =>
    if domain_param.isSome then (Except.error PyErr.assertionError, s)
    else if i < s.count.length then
      let s1 : SVPGAdapterState := { s with count := s.count.set i 0 }
      if i < s1.inner_parameter_state.length then
        let row :=
          match init_state with
          | none => freshRow
          | some v => v
        (Except.ok (ResetResult.row row),
          { s1 with inner_parameter_state := s1.inner_parameter_state.set i row })
      else (Except.error PyErr.indexError, s1)
    else (Except.error PyErr.indexError, s)
  | none =>
    if domain_param.isSome then (Except.error PyErr.assertionError, s)
    else
      let s1 : SVPGAdapterState := { s with count := List.replicate s.num_particles 0 }
      let mat :=
        match init_state_mat with
        | none => freshMat
        | some m => m
      (Except.ok (ResetResult.mat mat), { s1 with inner_parameter_state := mat })

/-- Result of running `SVPGAdapter.__init__`: the constructed adapter plus whether the
constructor surfaced any warning.  On `SamplerPool` construction failure the
`except AssertionError` branch evaluates `Warning("THIS IS NOT MEANT TO BE PARALLEL
SAMPLED")`, which merely builds an exception object without raising or emitting it, so
`warning_emitted` is `false` on every path. -/
structure InitResult where
  adapter : SVPGAdapterState
  warning_emitted : Bool
  deriving DecidableEq, Repr

/-- `SVPGAdapter.__init__` (the state-relevant part).  `pool_ctor_ok` models whether
`SamplerPool(num_workers)` raises `AssertionError`; when it does, the exception is
swallowed and `self.pool` is left unassigned while construction continues.  The
constructor zero-initializes the parameter matrix and counters and finally calls
`self.reset()`, whose random matrix draw is the explicit `freshMat` argument. -/
def SVPGAdapter.init (parameters : List DomainParam) (num_particles : ℕ)
    (step_length : ℚ) (horizon : ℕ) (max_steps : ℕ) (pool_ctor_ok : Bool)
    (freshMat : List (List ℚ)) : InitResult :=
  let s0 : SVPGAdapterState :=
    { inner_parameter_state :=
        List.replicate num_particles (List.replicate parameters.length 0)
      count := List.replicate num_particles 0
      horizon_count := 0
      max_steps := max_steps
      horizon := horizon
      svpg_max_step_length := step_length
      pool_assigned := pool_ctor_ok
      num_particles := num_particles }
  { adapter := (SVPGAdapter.reset s0 none none none none [] freshMat).2
    warning_emitted := false }

/-- `SVPGAdapter.params()`: the ordered list of randomized parameter names, fixed at
construction through `self.parameters`. -/
def SVPGAdapter.params (parameters : List DomainParam) : List String :=
  parameters.map (fun p => p.name)

/-- `SVPGAdapter.nominal()`.  `nom` models
`inner_env(self.wrapped_env).get_nominal_domain_param()`; it is total, reflecting a
wrapped environment that supplies a nominal value for every randomized parameter name. -/
def SVPGAdapter.nominal (parameters : List DomainParam) (nom : String → ℚ) : List ℚ :=
  (SVPGAdapter.params parameters).map (fun k => nom k)

/-- `SVPGAdapter.nominal_dict()`, the dict comprehension over the fixed name ordering. -/
def SVPGAdapter.nominal_dict (parameters : List DomainParam) (nom : String → ℚ) :
    List (String × ℚ) :=
  (SVPGAdapter.params parameters).map (fun k => (k, nom k))

/-- `SVPGAdapter.array_to_dict(arr)`: zip the fixed parameter names with a vector. -/
def SVPGAdapter.array_to_dict (parameters : List DomainParam) (arr : List ℚ) :
    List (String × ℚ) :=
  (SVPGAdapter.params parameters).zip arr

/-- Lookup in a Python dict built by inserting the listed bindings in order: the last
binding for a key wins, absent keys give `none`. -/
def dictGet (d : List (String × ℚ)) (k : String) : Option ℚ :=
  (d.reverse.find? (fun p => p.1 == k)).map (fun p => p.2)

/-- Modelled from the spec: `StepSequence.iterate_rollouts` — the trajectory
container's grouped sub-rollout iterator, whose source is not under `src/` — yields
each grouped sub-rollout of a concatenated rollout exactly once.  The source binds its
result to `reference_batch_generator` / `random_batch_generator`: a Python generator
object, which yields nothing once exhausted.  A generator is modelled as the list of
elements it has not yet yielded, and `RewardGenerator.train` below threads that
remainder through its epoch loop.  Sub-rollouts themselves are abstract (`α`). -/
def iterateRolloutsOnce {α : Type} (remaining : List α) : List α := remaining

/-- The epoch loop of `RewardGenerator.train`, threading the two generator remainders.
Each epoch `zip`s the generators: `min`-many pairs are produced, one optimizer step
per pair, and the loss tensor is overwritten by each pair (modelled as the pair
itself).  `zip` consumes the paired elements from both generators — and, when the
reference generator still has an element after the randomized one is exhausted, one
further element of the reference generator that is discarded without a step. -/
def trainGo {α : Type} : List α → List α → ℕ → ℕ → Option (α × α) → ℕ × Option (α × α)
  | _, _, 0, steps, loss => (steps, loss)
  | refGen, randGen, Nat.succ n, steps, loss =>
    let pairs := refGen.zip randGen
    let k := pairs.length
    let newLoss :=
      match pairs.getLast? with
      | some p => some p
      | none => loss
    trainGo (refGen.drop (if k < refGen.length then k + 1 else k)) (randGen.drop k)
      n (steps + k) newLoss

/-- `RewardGenerator.train(reference_trajectory, randomized_trajectory, num_epoch)`:
creates the two sub-rollout generators once, runs `num_epoch` epochs over them with
`loss = None` initially, and returns `(total optimizer steps, final loss)` — `none`
models Python's `loss` still being `None` when no pair was ever processed. -/
def RewardGenerator.train {α : Type} (reference_trajectory randomized_trajectory : List α)
    (num_epoch : ℕ) : ℕ × Option (α × α) :=
  trainGo (iterateRolloutsOnce reference_trajectory) (iterateRolloutsOnce randomized_trajectory)
    num_epoch 0 none

/-- The argument handed to `preprocess_rollout`: either a `StepSequence` carrying its
observation and action matrices (one row per time step), or any other Python object
(e.g. a plain list). -/
inductive RolloutArg (α : Type)
  | stepSequence (observations actions : List (List α))
  | nonStepSequence
  deriving DecidableEq, Repr

/-- `preprocess_rollout(rollout)`: raises `pyrado.TypeErr` unless given a
`StepSequence`; otherwise takes `observations[:-1]` as the states,
`observations[1:]` as the (discarded) next states, narrows the actions to the same
number of rows (`Tensor.narrow` raises when fewer rows exist), and concatenates state
and action rows along the feature axis. -/
def preprocess_rollout {α : Type} (rollout : RolloutArg α) : Except PyErr (List (List α)) :=
  match rollout with
  | RolloutArg.nonStepSequence => Except.error PyErr.typeErr
  | RolloutArg.stepSequence obs acts =>
    let state := obs.dropLast
    let next_state := obs.drop 1
    if acts.length < next_state.length then Except.error PyErr.runtimeError
    else
      let action := acts.take next_state.length
      Except.ok (List.zipWith (fun a b => a ++ b) state action)

/-- The spec's step-update formula, stated from the spec's words for comparison with
the code's `SVPGAdapter.step`: componentwise
`clip(v + clip(a, -1, 1) * step_length, 0, 1)`. -/
def specStepUpdate (v a : List ℚ) (step_length : ℚ) : List ℚ :=
  List.zipWith (fun vi ai => clip (vi + clip ai (-1) 1 * step_length) 0 1) v a

/-- Drive `step` repeatedly for particle `i`, one `(action, fresh draw)` pair per
call, collecting the returned `done` flags; stops if a call raises. -/
def runDones (i : ℕ) : SVPGAdapterState → List (List ℚ × List ℚ) → List Bool
  | _, [] => []
  | s, (a, f) :: rest =>
    match SVPGAdapter.step s a (some i) f with
    | (Except.ok r, s') => r.2 :: runDones i s' rest
    | (Except.error _, _) => []

/-- The clipped candidate row `np.clip(state[i] + clip(act)*len, 0, 1)` computed by
`SVPGAdapter.step` (named to keep the step characterization readable). -/
def stepUpdatedRow (s : SVPGAdapterState) (a : List ℚ) (i : ℕ) : List ℚ :=
  clipVec (List.zipWith (fun x y => x + y) (s.inner_parameter_state.getD i [])
    ((clipVec a (-1) 1).map (fun x => x * s.svpg_max_step_length))) 0 1

/-- The row actually stored and returned by a successful `SVPGAdapter.step`: the fresh
draw on a horizon boundary, the clipped candidate otherwise. -/
def stepRow (s : SVPGAdapterState) (a : List ℚ) (i : ℕ) (f : List ℚ) : List ℚ :=
  if (s.count.getD i 0 + 1) % s.horizon == 0 then f else stepUpdatedRow s a i

lemma getD_set_self {α : Type} (l : List α) (i : ℕ) (v d : α) (h : i < l.length) :
    (l.set i v).getD i d = v := by
  rw [List.getD_eq_getElem?_getD, List.getElem?_set_eq_of_lt v h, Option.getD_some]

lemma getD_set_ne {α : Type} (l : List α) (i j : ℕ) (v d : α) (h : j ≠ i) :
    (l.set i v).getD j d = l.getD j d := by
  rw [List.getD_eq_getElem?_getD, List.getElem?_set_ne (fun he => h he.symm),
    List.getD_eq_getElem?_getD]

/-- Characterization of a successful `step` call: with a bound sampler pool and an
in-range particle index, the call returns the stored row and the `done` flag computed
from the pre-increment counter, and the post-state updates exactly row `i`, counter
`i` and the shared `horizon_count`. -/
lemma step_ok_spec (s : SVPGAdapterState) (a f : List ℚ) (i : ℕ)
    (hp : s.pool_assigned = true) (hi : i < s.inner_parameter_state.length)
    (hic : i < s.count.length) :
    SVPGAdapter.step s a (some i) f =
      (Except.ok (stepRow s a i f, decide ((s.count.getD i 0 : ℤ) ≥ (s.max_steps : ℤ) - 1)),
       { s with
         inner_parameter_state := s.inner_parameter_state.set i (stepRow s a i f),
         count := s.count.set i (s.count.getD i 0 + 1),
         horizon_count := s.horizon_count + 1 }) := by
  simp only [SVPGAdapter.step, stepRow, stepUpdatedRow]
  rw [if_pos hi, if_pos hp, if_pos hic]
  by_cases hh : (s.count.getD i 0 + 1) % s.horizon == 0
  · rw [if_pos hh, if_pos hh]
    simp [List.set_set]
  · rw [if_neg hh, if_neg hh]

lemma clip01_mem (x : ℚ) : 0 ≤ clip x 0 1 ∧ clip x 0 1 ≤ 1 := by
  unfold clip
  constructor
  · exact le_min (by norm_num) (le_max_left 0 x)
  · exact min_le_left 1 _

lemma clipVec01_mem (v : List ℚ) : ∀ x ∈ clipVec v 0 1, 0 ≤ x ∧ x ≤ 1 := by
  intro x hx
  rcases List.mem_map.mp hx with ⟨y, _, rfl⟩
  exact clip01_mem y

/-- The incremented counter is a positive multiple of the horizon exactly when the
code's modulo test fires (also covering `horizon = 0`, where numpy's float modulo
yields `nan` and the test never fires). -/
lemma pos_mul_iff_mod (c h : ℕ) : (∃ m, 0 < m ∧ c + 1 = m * h) ↔ (c + 1) % h = 0 := by
  cases h with
  | zero =>
    simp only [Nat.mod_zero, Nat.mul_zero]
    constructor
    · rintro ⟨m, _, hm⟩; omega
    · intro hc; omega
  | succ k =>
    constructor
    · rintro ⟨m, _, hm⟩
      rw [hm]
      exact Nat.mul_mod_left m (k + 1)
    · intro hc
      rcases Nat.dvd_iff_mod_eq_zero.mpr hc with ⟨m, hm⟩
      refine ⟨m, ?_, by rw [hm]; ring⟩
      rcases Nat.eq_zero_or_pos m with h0 | h0
      · subst h0; simp at hm
      · exact h0

/-- With an unbound sampler pool, `step` still mutates row `i` (the assignment on
line 366 precedes the pool access) and then raises `AttributeError`. -/
lemma step_no_pool_spec (s : SVPGAdapterState) (a f : List ℚ) (i : ℕ)
    (hp : s.pool_assigned = false) (hi : i < s.inner_parameter_state.length) :
    SVPGAdapter.step s a (some i) f =
      (Except.error PyErr.attributeError,
       { s with inner_parameter_state :=
           s.inner_parameter_state.set i (stepUpdatedRow s a i) }) := by
  simp only [SVPGAdapter.step, stepUpdatedRow]
  rw [if_pos hi, if_neg (by simp [hp])]

lemma step_count_oob_spec (s : SVPGAdapterState) (a f : List ℚ) (i : ℕ)
    (hp : s.pool_assigned = true) (hi : i < s.inner_parameter_state.length)
    (hic : ¬ i < s.count.length) :
    SVPGAdapter.step s a (some i) f =
      (Except.error PyErr.indexError,
       { s with inner_parameter_state :=
           s.inner_parameter_state.set i (stepUpdatedRow s a i) }) := by
  simp only [SVPGAdapter.step, stepUpdatedRow]
  rw [if_pos hi, if_pos hp, if_neg hic]

lemma step_param_oob_spec (s : SVPGAdapterState) (a f : List ℚ) (i : ℕ)
    (hi : ¬ i < s.inner_parameter_state.length) :
    SVPGAdapter.step s a (some i) f = (Except.error PyErr.indexError, s) := by
  simp only [SVPGAdapter.step]
  rw [if_neg hi]

/-- The code's clipped update equals the spec's formula
`clip(v + clip(a, -1, 1) * step_length, 0, 1)`. -/
lemma stepUpdatedRow_eq_spec (s : SVPGAdapterState) (a : List ℚ) (i : ℕ) :
    stepUpdatedRow s a i
      = specStepUpdate (s.inner_parameter_state.getD i []) a s.svpg_max_step_length := by
  unfold stepUpdatedRow specStepUpdate clipVec
  generalize s.inner_parameter_state.getD i [] = v
  generalize s.svpg_max_step_length = len
  induction v generalizing a with
  | nil => simp
  | cons x xs ih =>
    cases a with
    | nil => simp
    | cons b bs => simpa using ih bs

lemma zip_map_self {β : Type} (f : String → β) :
    ∀ l : List String, l.zip (l.map f) = l.map (fun n => (n, f n))
  | [] => rfl
  | x :: xs => by simp [zip_map_self f xs]

lemma trainGo_ref_nil {α : Type} :
    ∀ (n : ℕ) (randGen : List α) (steps : ℕ) (loss : Option (α × α)),
      trainGo [] randGen n steps loss = (steps, loss)
  | 0, _, _, _ => rfl
  | Nat.succ n, randGen, steps, loss => by
    simp only [trainGo, List.zip_nil_left, List.length_nil, List.getLast?_nil, List.drop_nil]
    simpa using trainGo_ref_nil n (randGen.drop 0) steps loss

lemma trainGo_rand_nil {α : Type} :
    ∀ (n : ℕ) (refGen : List α) (steps : ℕ) (loss : Option (α × α)),
      trainGo refGen [] n steps loss = (steps, loss)
  | 0, _, _, _ => rfl
  | Nat.succ n, refGen, steps, loss => by
    simp only [trainGo, List.zip_nil_right, List.length_nil, List.getLast?_nil, List.drop_nil]
    simpa using trainGo_rand_nil n _ steps loss

/-- Running `step` repeatedly on particle `i` from counter value `c`: the `done` flag
of the `(j+1)`-th call reads the pre-increment counter `c + j`. -/
lemma runDones_getD (i : ℕ) :
    ∀ (inputs : List (List ℚ × List ℚ)) (s : SVPGAdapterState) (c j : ℕ),
      s.pool_assigned = true → i < s.inner_parameter_state.length → i < s.count.length →
      s.count.getD i 0 = c →
      (runDones i s inputs).getD j false
        = decide (j < inputs.length ∧ ((c : ℤ) + (j : ℤ) ≥ (s.max_steps : ℤ) - 1)) := by
  intro inputs
  induction inputs with
  | nil =>
    intro s c j hp hi hic hc
    simp [runDones]
  | cons p rest ih =>
    intro s c j hp hi hic hc
    obtain ⟨a, f⟩ := p
    have hstep := step_ok_spec s a f i hp hi hic
    simp only [runDones, hstep]
    cases j with
    | zero =>
      rw [List.getD_cons_zero]
      rw [hc]
      simp only [List.length_cons]
      have : (0 : ℤ) ≤ (rest.length : ℤ) := by positivity
      apply Eq.symm
      by_cases hd : ((c : ℤ) ≥ (s.max_steps : ℤ) - 1)
      · simp only [decide_eq_true_eq] at *
        rw [decide_eq_true (by omega), decide_eq_true (by omega)]
      · rw [decide_eq_false (by omega), decide_eq_false (by omega)]
    | succ j =>
      rw [List.getD_cons_succ]
      rw [ih { s with
            inner_parameter_state := s.inner_parameter_state.set i (stepRow s a i f),
            count := s.count.set i (s.count.getD i 0 + 1),
            horizon_count := s.horizon_count + 1 } (c + 1) j hp
          (by show i < (s.inner_parameter_state.set i (stepRow s a i f)).length
              rwa [List.length_set])
          (by show i < (s.count.set i (s.count.getD i 0 + 1)).length
              rwa [List.length_set])
          (by show (s.count.set i (s.count.getD i 0 + 1)).getD i 0 = c + 1
              rw [getD_set_self _ _ _ _ hic, hc])]
      dsimp only
      simp only [List.length_cons]
      apply decide_eq_decide.mpr
      constructor
      · rintro ⟨h1, h2⟩; exact ⟨by omega, by push_cast at h2 ⊢; omega⟩
      · rintro ⟨h1, h2⟩; exact ⟨by omega, by push_cast at h2 ⊢; omega⟩

/-- Inversion of a successful `step`: success forces the pool to be bound and the
index in range, and determines the returned row, flag and post-state. -/
lemma step_ok_inv (t : SVPGAdapterState) (a f : List ℚ) (i : ℕ) (r : List ℚ × Bool)
    (t' : SVPGAdapterState)
    (hstep : SVPGAdapter.step t a (some i) f = (Except.ok r, t')) :
    t.pool_assigned = true ∧ i < t.inner_parameter_state.length ∧ i < t.count.length ∧
    r = (stepRow t a i f, decide ((t.count.getD i 0 : ℤ) ≥ (t.max_steps : ℤ) - 1)) ∧
    t' = { t with
      inner_parameter_state := t.inner_parameter_state.set i (stepRow t a i f),
      count := t.count.set i (t.count.getD i 0 + 1),
      horizon_count := t.horizon_count + 1 } := by
  by_cases hi : i < t.inner_parameter_state.length
  · by_cases hp : t.pool_assigned = true
    · by_cases hic : i < t.count.length
      · rw [step_ok_spec t a f i hp hi hic] at hstep
        simp only [Prod.mk.injEq, Except.ok.injEq] at hstep
        exact ⟨hp, hi, hic, hstep.1.symm, hstep.2.symm⟩
      · rw [step_count_oob_spec t a f i hp hi hic] at hstep
        simp at hstep
    · rw [step_no_pool_spec t a f i (by revert hp; cases t.pool_assigned <;> simp) hi] at hstep
      simp at hstep
  · rw [step_param_oob_spec t a f i hi] at hstep
    simp at hstep

/-- C1: for every particle index `i`, current normalized-parameter vector and action,
after one call to `SVPGAdapter.step(a, i)` the stepped particle's normalized-parameter
vector is componentwise within `[0, 1]` — produced by clipping on ordinary steps and
by the fresh `np.random.random_sample` draw (valued in `[0, 1)`) on horizon steps. -/
theorem step_param_in_unit_interval (s : SVPGAdapterState) (act fresh : List ℚ) (i : ℕ)
    (hfresh : ∀ x ∈ fresh, 0 ≤ x ∧ x < 1)
    (hi : i < s.inner_parameter_state.length) :
    ∀ x ∈ (SVPGAdapter.step s act (some i) fresh).2.inner_parameter_state.getD i [],
      0 ≤ x ∧ x ≤ 1 := by
  by_cases hp : s.pool_assigned = true
  · by_cases hic : i < s.count.length
    · rw [step_ok_spec s act fresh i hp hi hic]
      dsimp only
      rw [getD_set_self _ _ _ _ hi]
      unfold stepRow
      by_cases hh : ((s.count.getD i 0 + 1) % s.horizon == 0) = true
      · rw [if_pos hh]
        intro x hx
        rcases hfresh x hx with ⟨h0, h1⟩
        exact ⟨h0, le_of_lt h1⟩
      · rw [if_neg hh]
        exact clipVec01_mem _
    · rw [step_count_oob_spec s act fresh i hp hi hic]
      dsimp only
      rw [getD_set_self _ _ _ _ hi]
      exact clipVec01_mem _
  · rw [step_no_pool_spec s act fresh i (by revert hp; cases s.pool_assigned <;> simp) hi]
    dsimp only
    rw [getD_set_self _ _ _ _ hi]
    exact clipVec01_mem _

theorem step_param_in_unit_interval_witness :
    (1 : ℚ) ∈ (SVPGAdapter.step
        { inner_parameter_state := [[2]], count := [0], horizon_count := 0, max_steps := 8,
          horizon := 50, svpg_max_step_length := 1, pool_assigned := true, num_particles := 1 }
        [3] (some 0) [1/2]).2.inner_parameter_state.getD 0 [] ∧
    (0 ≤ (1 : ℚ) ∧ (1 : ℚ) ≤ 1) := by
  have hmem : (1 : ℚ) ∈ (SVPGAdapter.step
      { inner_parameter_state := [[2]], count := [0], horizon_count := 0, max_steps := 8,
        horizon := 50, svpg_max_step_length := 1, pool_assigned := true, num_particles := 1 }
      [3] (some 0) [1/2]).2.inner_parameter_state.getD 0 [] := by
    rw [step_ok_spec _ [3] [1/2] 0 rfl (by decide) (by decide)]
    dsimp only
    rw [getD_set_self _ _ _ _ (by decide)]
    unfold stepRow
    rw [if_neg (by decide)]
    norm_num [stepUpdatedRow, clipVec, clip]
  exact ⟨hmem, step_param_in_unit_interval _ [3] [1/2] 0
    (by intro x hx; simp at hx; subst hx; constructor <;> norm_num) (by decide) 1 hmem⟩

/-- C2: on a successful `SVPGAdapter.step(a, i)`, if the particle's incremented local
step counter is a positive multiple of the configured horizon the returned parameter
vector is the fresh random draw (independent of the pre-step vector), and otherwise it
equals the spec formula `clip(v + clip(a, -1, 1) * step_length, 0, 1)` applied to the
pre-step vector `v` and the supplied action `a`. -/
theorem step_update_rule (s : SVPGAdapterState) (act fresh : List ℚ) (i : ℕ)
    (r : List ℚ) (d : Bool) (s' : SVPGAdapterState)
    (hstep : SVPGAdapter.step s act (some i) fresh = (Except.ok (r, d), s')) :
    ((∃ m, 0 < m ∧ s.count.getD i 0 + 1 = m * s.horizon) → r = fresh) ∧
    ((¬ ∃ m, 0 < m ∧ s.count.getD i 0 + 1 = m * s.horizon) →
      r = specStepUpdate (s.inner_parameter_state.getD i []) act s.svpg_max_step_length) := by
  obtain ⟨-, -, -, hr, -⟩ := step_ok_inv s act fresh i (r, d) s' hstep
  have hrow : r = stepRow s act i fresh := congrArg Prod.fst hr
  constructor
  · intro hm
    rw [hrow]
    unfold stepRow
    rw [if_pos (by simpa using (pos_mul_iff_mod (s.count.getD i 0) s.horizon).mp hm)]
  · intro hm
    rw [hrow]
    unfold stepRow
    rw [if_neg (by
      rw [pos_mul_iff_mod] at hm
      simpa using hm)]
    exact stepUpdatedRow_eq_spec s act i

theorem step_update_rule_witness :
    stepRow
      { inner_parameter_state := [[2]], count := [0], horizon_count := 0, max_steps := 8,
        horizon := 50, svpg_max_step_length := 1, pool_assigned := true, num_particles := 1 }
      [3] 0 [1/2]
      = specStepUpdate
        (({ inner_parameter_state := [[2]], count := [0], horizon_count := 0, max_steps := 8,
            horizon := 50, svpg_max_step_length := 1, pool_assigned := true,
            num_particles := 1 } : SVPGAdapterState).inner_parameter_state.getD 0 [])
        [3] 1 :=
  (step_update_rule _ [3] [1/2] 0 _ _ _
      (step_ok_spec _ [3] [1/2] 0 rfl (by decide) (by decide))).2
    (by rw [pos_mul_iff_mod]; decide)

/-- C4: the `done` flag of any successful `step` is true exactly when the particle's
step counter, read before its in-call increment, has reached `max_steps - 1`; for a
particle stepped repeatedly from a fresh reset (counter 0), the `(j+1)`-th call
returns `done = true` exactly when `j + 1 ≥ max_steps`, i.e. the first
`max_steps - 1` calls return false and the `max_steps`-th returns true. -/
theorem step_done_at_max_steps (s : SVPGAdapterState) (i : ℕ)
    (inputs : List (List ℚ × List ℚ))
    (hp : s.pool_assigned = true)
    (hi : i < s.inner_parameter_state.length)
    (hic : i < s.count.length)
    (h0 : s.count.getD i 0 = 0) :
    (∀ (t : SVPGAdapterState) (a f row : List ℚ) (d : Bool) (t' : SVPGAdapterState),
        SVPGAdapter.step t a (some i) f = (Except.ok (row, d), t') →
        d = decide ((t.count.getD i 0 : ℤ) ≥ (t.max_steps : ℤ) - 1)) ∧
    ∀ j, (runDones i s inputs).getD j false
        = decide (j < inputs.length ∧ s.max_steps ≤ j + 1) := by
  constructor
  · intro t a f row d t' hstep
    obtain ⟨-, -, -, hr, -⟩ := step_ok_inv t a f i (row, d) t' hstep
    exact congrArg Prod.snd hr
  · intro j
    rw [runDones_getD i inputs s 0 j hp hi hic h0]
    apply decide_eq_decide.mpr
    constructor
    · rintro ⟨h1, h2⟩
      refine ⟨h1, ?_⟩
      push_cast at h2
      omega
    · rintro ⟨h1, h2⟩
      refine ⟨h1, ?_⟩
      push_cast
      omega

theorem step_done_at_max_steps_witness :
    (runDones 0
        { inner_parameter_state := [[0]], count := [0], horizon_count := 0, max_steps := 2,
          horizon := 50, svpg_max_step_length := 1, pool_assigned := true, num_particles := 1 }
        [([0], [0]), ([0], [0])]).getD 0 false = false ∧
    (runDones 0
        { inner_parameter_state := [[0]], count := [0], horizon_count := 0, max_steps := 2,
          horizon := 50, svpg_max_step_length := 1, pool_assigned := true, num_particles := 1 }
        [([0], [0]), ([0], [0])]).getD 1 false = true := by
  have h := step_done_at_max_steps
    { inner_parameter_state := [[0]], count := [0], horizon_count := 0, max_steps := 2,
      horizon := 50, svpg_max_step_length := 1, pool_assigned := true, num_particles := 1 }
    0 [([0], [0]), ([0], [0])] rfl (by decide) (by decide) rfl
  exact ⟨(h.2 0).trans (by decide), (h.2 1).trans (by decide)⟩

/-- C5: `array_to_dict(nominal())` reproduces `nominal_dict()` exactly — the zip of the
fixed parameter-name ordering with the nominal values is the same binding list as the
dict comprehension, so the two dicts agree on every key.  The total map `nom` models a
wrapped environment that supplies a nominal value for each randomized parameter name. -/
theorem array_to_dict_nominal_round_trip (parameters : List DomainParam) (nom : String → ℚ) :
    SVPGAdapter.array_to_dict parameters (SVPGAdapter.nominal parameters nom)
      = SVPGAdapter.nominal_dict parameters nom ∧
    ∀ k, dictGet (SVPGAdapter.array_to_dict parameters (SVPGAdapter.nominal parameters nom)) k
      = dictGet (SVPGAdapter.nominal_dict parameters nom) k := by
  have h : SVPGAdapter.array_to_dict parameters (SVPGAdapter.nominal parameters nom)
      = SVPGAdapter.nominal_dict parameters nom := by
    unfold SVPGAdapter.array_to_dict SVPGAdapter.nominal SVPGAdapter.nominal_dict
    exact zip_map_self nom (SVPGAdapter.params parameters)
  exact ⟨h, fun k => by rw [h]⟩

/-- C6: `RewardGenerator.train` with `num_epoch = 0`, or with batches yielding zero
same-index pairs, performs zero optimizer steps and returns the sentinel `None`
(Python's `loss` is pre-initialized, so nothing uninitialized is referenced). -/
theorem train_degenerate {α : Type} (refs rands : List α) (n : ℕ)
    (h : n = 0 ∨ refs = [] ∨ rands = []) :
    RewardGenerator.train refs rands n = (0, none) := by
  unfold RewardGenerator.train iterateRolloutsOnce
  rcases h with rfl | rfl | rfl
  · rfl
  · exact trainGo_ref_nil n rands 0 none
  · exact trainGo_rand_nil n refs 0 none

theorem train_degenerate_witness :
    RewardGenerator.train ([3] : List ℕ) [7] 0 = (0, none) ∧
    RewardGenerator.train ([] : List ℕ) [7] 5 = (0, none) :=
  ⟨train_degenerate [3] [7] 0 (Or.inl rfl),
   train_degenerate [] [7] 5 (Or.inr (Or.inl rfl))⟩

/-- C7: `SVPGAdapter.step` called without a particle index raises
`NotImplementedError` immediately, with the adapter state unchanged — no fallback to a
default particle or to bulk stepping. -/
theorem step_without_index_raises (s : SVPGAdapterState) (act fresh : List ℚ) :
    SVPGAdapter.step s act none fresh = (Except.error PyErr.notImplementedError, s) := rfl

/-- C3 (refuting the per-epoch pairing count): `train` with `num_epoch = 2` on two
one-sub-rollout batches performs 1 optimizer step, not `num_epoch * pairs = 2`: the
sub-rollout generators are created once before the epoch loop and are exhausted after
the first epoch. -/
theorem train_epoch_generator_exhaustion :
    (RewardGenerator.train ([0] : List ℕ) [0] 2).1 = 1 ∧
    (RewardGenerator.train ([0] : List ℕ) [0] 2).1 ≠ 2 * 1 := by
  constructor
  · rfl
  · decide

/-- C9 (refuting continued usability): when `SamplerPool` construction fails, the
constructor does complete, but no warning is surfaced (`Warning(...)` is a discarded
expression) and `self.pool` is left unassigned, so the very next `step` call raises
`AttributeError` instead of succeeding in a reduced-capability mode. -/
theorem pool_failure_breaks_step :
    (SVPGAdapter.init [{ name := "mass", weighting := 1 }] 2 (1/100) 50 8 false
        [[0], [0]]).warning_emitted = false ∧
    (SVPGAdapter.init [{ name := "mass", weighting := 1 }] 2 (1/100) 50 8 false
        [[0], [0]]).adapter.pool_assigned = false ∧
    (SVPGAdapter.step
        (SVPGAdapter.init [{ name := "mass", weighting := 1 }] 2 (1/100) 50 8 false
          [[0], [0]]).adapter [0] (some 0) [0]).1 = Except.error PyErr.attributeError := by
  refine ⟨rfl, rfl, ?_⟩
  rw [step_no_pool_spec _ [0] [0] 0 rfl (by decide)]

/-- C10: index-scoped `step` and `reset` are frame-preserving — for any other
particle `j ≠ i` they leave row `j` of the parameter matrix and entry `j` of the
counter vector unchanged; a successful `step` additionally increments the shared
`horizon_count` by one. -/
theorem step_reset_frame (s : SVPGAdapterState) (a f : List ℚ) (i j : ℕ) (hij : j ≠ i)
    (init : Option (List ℚ)) (dp : Option (List (String × ℚ)))
    (fr : List ℚ) (fm : List (List ℚ)) :
    ((SVPGAdapter.step s a (some i) f).2.inner_parameter_state.getD j []
        = s.inner_parameter_state.getD j [] ∧
     (SVPGAdapter.step s a (some i) f).2.count.getD j 0 = s.count.getD j 0) ∧
    ((SVPGAdapter.reset s (some i) init none dp fr fm).2.inner_parameter_state.getD j []
        = s.inner_parameter_state.getD j [] ∧
     (SVPGAdapter.reset s (some i) init none dp fr fm).2.count.getD j 0
        = s.count.getD j 0) ∧
    (∀ (r : List ℚ × Bool) (s' : SVPGAdapterState),
      SVPGAdapter.step s a (some i) f = (Except.ok r, s') →
      s'.horizon_count = s.horizon_count + 1) := by
  refine ⟨?_, ?_, ?_⟩
  · by_cases hi : i < s.inner_parameter_state.length
    · by_cases hp : s.pool_assigned = true
      · by_cases hic : i < s.count.length
        · rw [step_ok_spec s a f i hp hi hic]
          exact ⟨getD_set_ne _ _ _ _ _ hij, getD_set_ne _ _ _ _ _ hij⟩
        · rw [step_count_oob_spec s a f i hp hi hic]
          exact ⟨getD_set_ne _ _ _ _ _ hij, rfl⟩
      · rw [step_no_pool_spec s a f i (by revert hp; cases s.pool_assigned <;> simp) hi]
        exact ⟨getD_set_ne _ _ _ _ _ hij, rfl⟩
    · rw [step_param_oob_spec s a f i hi]
      exact ⟨rfl, rfl⟩
  · simp only [SVPGAdapter.reset]
    by_cases hdp : dp.isSome
    · rw [if_pos hdp]
      exact ⟨rfl, rfl⟩
    · rw [if_neg hdp]
      by_cases hic : i < s.count.length
      · rw [if_pos hic]
        by_cases hin : i < s.inner_parameter_state.length
        · rw [if_pos hin]
          exact ⟨getD_set_ne _ _ _ _ _ hij, getD_set_ne _ _ _ _ _ hij⟩
        · rw [if_neg hin]
          exact ⟨rfl, getD_set_ne _ _ _ _ _ hij⟩
      · rw [if_neg hic]
        exact ⟨rfl, rfl⟩
  · intro r s' hstep
    obtain ⟨-, -, -, -, hs⟩ := step_ok_inv s a f i r s' hstep
    rw [hs]

theorem step_reset_frame_witness :
    (SVPGAdapter.step
        { inner_parameter_state := [[0], [7]], count := [0, 3], horizon_count := 0,
          max_steps := 8, horizon := 50, svpg_max_step_length := 1, pool_assigned := true,
          num_particles := 2 } [1] (some 0) [0]).2.inner_parameter_state.getD 1 []
      = ({ inner_parameter_state := [[0], [7]], count := [0, 3], horizon_count := 0,
           max_steps := 8, horizon := 50, svpg_max_step_length := 1, pool_assigned := true,
           num_particles := 2 } : SVPGAdapterState).inner_parameter_state.getD 1 [] :=
  (step_reset_frame
    { inner_parameter_state := [[0], [7]], count := [0, 3], horizon_count := 0,
      max_steps := 8, horizon := 50, svpg_max_step_length := 1, pool_assigned := true,
      num_particles := 2 } [1] [0] 0 1 (by decide) none none [] []).1.1

/-- C8: `preprocess_rollout` raises the input-type error on any non-`StepSequence`
argument; on a trajectory with `T + 1` observation rows it returns the `T`-row
sequence whose row `t` is the concatenation of observation row `t` and action row `t`
along the feature axis (the shifted next-state rows are discarded). -/
theorem preprocess_rollout_spec {α : Type} (obs acts : List (List α))
    (hlen : obs.length = acts.length + 1) :
    preprocess_rollout (RolloutArg.nonStepSequence : RolloutArg α)
      = Except.error PyErr.typeErr ∧
    ∃ out, preprocess_rollout (RolloutArg.stepSequence obs acts) = Except.ok out ∧
      out.length = acts.length ∧
      ∀ t, t < acts.length → out.getD t [] = obs.getD t [] ++ acts.getD t [] := by
  refine ⟨rfl, ?_⟩
  have hns : (obs.drop 1).length = acts.length := by
    rw [List.length_drop]
    omega
  have hcond : ¬ acts.length < (obs.drop 1).length := by
    rw [hns]
    omega
  refine ⟨List.zipWith (fun a b => a ++ b) obs.dropLast (acts.take (obs.drop 1).length),
    ?_, ?_, ?_⟩
  · simp only [preprocess_rollout]
    rw [if_neg hcond]
  · rw [List.length_zipWith, List.length_take, List.length_dropLast, hns]
    omega
  · intro t ht
    have htout : t < (List.zipWith (fun (a b : List α) => a ++ b) obs.dropLast
        (acts.take (obs.drop 1).length)).length := by
      rw [List.length_zipWith, List.length_take, List.length_dropLast, hns]
      omega
    have h1 : t < obs.length := by omega
    rw [List.getD_eq_getElem _ _ htout, List.getElem_zipWith, List.getElem_dropLast,
      List.getElem_take, List.getD_eq_getElem _ _ h1, List.getD_eq_getElem _ _ ht]

theorem preprocess_rollout_spec_witness :
    preprocess_rollout (RolloutArg.nonStepSequence : RolloutArg ℕ)
      = Except.error PyErr.typeErr ∧
    ∃ out, preprocess_rollout (RolloutArg.stepSequence [[1], [2], [3]] [[10], [20]])
      = Except.ok out ∧
      out.length = [[10], [20]].length ∧
      ∀ t, t < [[10], [20]].length →
        out.getD t [] = [[1], [2], [3]].getD t [] ++ ([[10], [20]] : List (List ℕ)).getD t [] :=
  preprocess_rollout_spec [[1], [2], [3]] [[10], [20]] (by decide)
